import Mathlib

/-!
Shallow embedding of the core of the OpenNeuro streaming dataflow engine:
the broadcast `Channel` (src/backend/src/core/channel.py), the `Component`
lifecycle (src/backend/src/openneuro/core/component.py and
src/backend/src/core/component.py, whose lifecycle methods are identical),
and the graph mutation service (src/backend/src/api/graph/service.py).

Python dictionaries are modelled as association lists that preserve
insertion order, exactly as CPython dicts do; `dict[k] = v` updates an
existing key in place or appends a fresh one at the end, `dict.pop`
removes the key, and iteration follows insertion order.
-/

namespace OpenNeuro

/-- Lookup in an association list: the value of the first entry whose key
matches, as Python `d[k]` / `d.get(k)`. -/
def alookup {α : Type} (l : List (Nat × α)) (k : Nat) : Option α :=
  match l with
  | [] => none
  | (k', v) :: rest => if k' = k then some v else alookup rest k

/-- `d.get(k, dflt)` on a Python dict. -/
def agetD {α : Type} (l : List (Nat × α)) (k : Nat) (dflt : α) : α :=
  (alookup l k).getD dflt

/-- `d[k] = v` on a Python dict: update the existing entry in place, or
append a new one at the end. -/
def aset {α : Type} (l : List (Nat × α)) (k : Nat) (v : α) : List (Nat × α) :=
  match l with
  | [] => [(k, v)]
  | (k', v') :: rest => if k' = k then (k, v) :: rest else (k', v') :: aset rest k v

/-- `d.pop(k, None)` on a Python dict: drop the entry with the given key. -/
def aremove {α : Type} (l : List (Nat × α)) (k : Nat) : List (Nat × α) :=
  match l with
  | [] => []
  | (k', v') :: rest => if k' = k then rest else (k', v') :: aremove rest k

/-- Zero every value of a dict, as the loop
`for sub_id in d: d[sub_id] = 0` does in `Channel.snapshot`. -/
def azero (l : List (Nat × Nat)) : List (Nat × Nat) :=
  l.map (fun p => (p.1, 0))

/-- `min(xs)` on a nonempty list of naturals (0 on the empty list, which the
source never evaluates: `Channel._gc` returns first when no cursor exists). -/
def minList : List Nat → Nat
  | [] => 0
  | x :: xs => xs.foldl Nat.min x

/-- Per-subscriber part of a channel snapshot (class `SubscriberSnapshot`). -/
structure SubscriberSnapshot where
  lag : Int
  msgCountDelta : Nat
  byteCountDelta : Nat
deriving DecidableEq

/-- Channel-level snapshot (class `ChannelSnapshot`). -/
structure ChannelSnapshot where
  name : String
  msgCountDelta : Nat
  byteCountDelta : Nat
  lastSendTime : Nat
  bufferDepth : Nat
  subscribers : List (String × SubscriberSnapshot)
deriving DecidableEq

/-- State of a `Channel[T]` (src/backend/src/core/channel.py):
`_items`, `_offset`, `_cursors`, `_sub_msg_count_delta`,
`_sub_byte_count_delta`, `name`, `_msg_count_delta`, `_byte_count_delta`,
`_last_send_time`.  Wall-clock times are modelled as naturals supplied by
the caller; `sys.getsizeof` is modelled as an explicit size function. -/
structure Channel (T : Type) where
  items : List T
  offset : Nat
  cursors : List (Nat × Nat)
  subMsgCountDelta : List (Nat × Nat)
  subByteCountDelta : List (Nat × Nat)
  name : String
  msgCountDelta : Nat
  byteCountDelta : Nat
  lastSendTime : Nat
deriving DecidableEq

/-- `Channel.__init__`. -/
def Channel.mk0 (T : Type) (name : String) : Channel T :=
  { items := [], offset := 0, cursors := [], subMsgCountDelta := [],
    subByteCountDelta := [], name := name, msgCountDelta := 0,
    byteCountDelta := 0, lastSendTime := 0 }

namespace Channel

variable {T : Type}

/-- `Channel.send`: with no registered cursor the item is dropped and
nothing changes; otherwise the item is appended, the per-channel counters
grow, and the send time is stamped.  `size` stands for `sys.getsizeof`,
`now` for `time.time()`. -/
def send (size : T → Nat) (now : Nat) (ch : Channel T) (item : T) : Channel T :=
  if ch.cursors = [] then ch
  else
    { ch with
      items := ch.items ++ [item],
      msgCountDelta := ch.msgCountDelta + 1,
      byteCountDelta := ch.byteCountDelta + size item,
      lastSendTime := now }

/-- `Channel.snapshot`: build the snapshot and reset every delta counter
(channel-level and per-subscriber) in the same critical section; buffer,
offset, cursors and send time are untouched.  Returns the snapshot and the
post-state. -/
def snapshot (ch : Channel T) : ChannelSnapshot × Channel T :=
  let total := ch.offset + ch.items.length
  let subs := ch.cursors.map (fun p =>
    (toString p.1,
      { lag := (total : Int) - (p.2 : Int),
        msgCountDelta := agetD ch.subMsgCountDelta p.1 0,
        byteCountDelta := agetD ch.subByteCountDelta p.1 0 : SubscriberSnapshot }))
  let snap : ChannelSnapshot :=
    { name := ch.name,
      msgCountDelta := ch.msgCountDelta,
      byteCountDelta := ch.byteCountDelta,
      lastSendTime := ch.lastSendTime,
      bufferDepth := ch.items.length,
      subscribers := subs }
  (snap,
    { ch with
      msgCountDelta := 0,
      byteCountDelta := 0,
      subMsgCountDelta := azero ch.subMsgCountDelta,
      subByteCountDelta := azero ch.subByteCountDelta })

/-- `Channel._register`: the subscriber id is `id(subscriber)` in the
source — the identity of the owning component, passed here explicitly.
The cursor starts at the current tail and both per-subscriber counters at
zero. -/
def register (ch : Channel T) (subId : Nat) : Channel T :=
  { ch with
    cursors := aset ch.cursors subId (ch.offset + ch.items.length),
    subMsgCountDelta := aset ch.subMsgCountDelta subId 0,
    subByteCountDelta := aset ch.subByteCountDelta subId 0 }

/-- `Channel._gc`: nothing happens while no cursor is registered; otherwise
items below the minimum cursor are discarded and the offset raised. -/
def gc (ch : Channel T) : Channel T :=
  if ch.cursors = [] then ch
  else
    let drop := minList (ch.cursors.map Prod.snd) - ch.offset
    if 0 < drop then
      { ch with items := ch.items.drop drop, offset := ch.offset + drop }
    else ch

/-- Outcome of one `Channel._wait_and_get` call in the sequential model. -/
inductive WaitOutcome (T : Type) where
  /-- An item was available at the cursor and is returned. -/
  | item (x : T)
  /-- The cursor was at the tail and the stop event was set: Python
  returns `None`. -/
  | sentinel
  /-- The cursor was at the tail and the stop event was not set: the call
  stays in its wait loop (no sequential step can finish it). -/
  | blocked
  /-- The subscriber id is absent (`self._cursors[sub_id]` would raise), or
  the cursor points below the retained window (impossible under the channel
  invariant). -/
  | keyError
deriving DecidableEq

/-- `Channel._wait_and_get`: read the cursor; while it is at or past the
tail, wait and return `None` once the stop event is observed; otherwise
deliver the item at the cursor, advance the cursor, bump the
per-subscriber counters and run GC. -/
def waitAndGet (size : T → Nat) (ch : Channel T) (subId : Nat) (stop : Bool) :
    WaitOutcome T × Channel T :=
  match alookup ch.cursors subId with
  | none => (.keyError, ch)
  | some index =>
    if index < ch.offset + ch.items.length then
      match ch.items.get? (index - ch.offset) with
      | none => (.keyError, ch)
      | some item =>
        let ch' :=
          { ch with
            cursors := aset ch.cursors subId (index + 1),
            subMsgCountDelta :=
              aset ch.subMsgCountDelta subId (agetD ch.subMsgCountDelta subId 0 + 1),
            subByteCountDelta :=
              aset ch.subByteCountDelta subId
                (agetD ch.subByteCountDelta subId 0 + size item) }
        (.item item, gc ch')
    else if stop then (.sentinel, ch)
    else (.blocked, ch)

/-- `Channel._unregister`: idempotent; drop the cursor and both counter
entries, then run GC. -/
def unregister (ch : Channel T) (subId : Nat) : Channel T :=
  if alookup ch.cursors subId = none then ch
  else
    gc { ch with
          cursors := aremove ch.cursors subId,
          subMsgCountDelta := aremove ch.subMsgCountDelta subId,
          subByteCountDelta := aremove ch.subByteCountDelta subId }

/-- One resume of the `Channel.stream` generator at its loop head: when the
owner's stop event is set the `while` guard fails and the generator yields
the terminal `None` without touching the channel; otherwise it forwards
whatever `_wait_and_get` produces. -/
def streamNext (size : T → Nat) (ch : Channel T) (subId : Nat) (stop : Bool) :
    WaitOutcome T × Channel T :=
  if stop then (.sentinel, ch)
  else waitAndGet size ch subId stop

/-- The `finally` clause of `Channel.stream`: when the generator finishes
or is closed, the subscription is unregistered. -/
def streamClose (ch : Channel T) (subId : Nat) : Channel T :=
  unregister ch subId

end Channel

/-! ## Channel operations and reachable states -/

/-- One channel operation, covering the mutating entry points of
`Channel`: `send`, `_register` (called by `stream`), `_wait_and_get`,
`_unregister` and `snapshot`. -/
inductive ChOp (T : Type) where
  | send (now : Nat) (item : T)
  | register (subId : Nat)
  | waitGet (subId : Nat) (stop : Bool)
  | unregister (subId : Nat)
  | snap
deriving DecidableEq

/-- Apply one operation to a channel, discarding the returned value. -/
def applyOp {T : Type} (size : T → Nat) (ch : Channel T) : ChOp T → Channel T
  | .send now item => ch.send size now item
  | .register subId => ch.register subId
  | .waitGet subId stop => (ch.waitAndGet size subId stop).2
  | .unregister subId => ch.unregister subId
  | .snap => ch.snapshot.2

/-- Apply a sequence of operations in order. -/
def applyOps {T : Type} (size : T → Nat) (ch : Channel T) (ops : List (ChOp T)) :
    Channel T :=
  ops.foldl (applyOp size) ch

/-- States reachable from a given channel state by channel operations. -/
def ReachableFrom {T : Type} (size : T → Nat) (ch0 ch : Channel T) : Prop :=
  ∃ ops, ch = applyOps size ch0 ops

/-- States reachable from a freshly constructed channel. -/
def Reachable {T : Type} (size : T → Nat) (name : String) (ch : Channel T) : Prop :=
  ReachableFrom size (Channel.mk0 T name) ch

/-- The channel window invariant: every cursor lies between the offset and
the tail. -/
def ChInv {T : Type} (ch : Channel T) : Prop :=
  ∀ p ∈ ch.cursors, ch.offset ≤ p.2 ∧ p.2 ≤ ch.offset + ch.items.length

/-- Well-formedness of the cursor dict: keys are unique, as in any Python
dict. -/
def ChWF {T : Type} (ch : Channel T) : Prop :=
  (ch.cursors.map Prod.fst).Nodup

/-! ## Component lifecycle

From `Component` in src/backend/src/openneuro/core/component.py; the
lifecycle methods (`start`, `stop`, `_safe_run`) of the sibling
src/backend/src/core/component.py are line-for-line identical. -/

/-- `Status` enumeration. -/
inductive Status where
  | startup
  | running
  | stopped
deriving DecidableEq

/-- `Status.value`. -/
def Status.value : Status → String
  | .startup => "startup"
  | .running => "running"
  | .stopped => "stopped"

/-- Mutable state of a component instance: `name`, `_status`,
`_started_at`, `_error`, `_stop_event` and the number of worker threads
spawned so far (modelling the `threading.Thread(...).start()` calls). -/
structure CompState where
  name : String
  status : Status
  startedAt : Option Nat
  error : Option String
  stopEventSet : Bool
  threadsSpawned : Nat
deriving DecidableEq

/-- `Component.__init__`. -/
def CompState.mk0 (name : String) : CompState :=
  { name := name, status := .startup, startedAt := none, error := none,
    stopEventSet := false, threadsSpawned := 0 }

namespace CompState

/-- `Component.start`: a no-op while the status is RUNNING; otherwise the
stop event is cleared and a fresh worker thread is spawned.  The returned
flag records whether a thread was spawned. -/
def start (c : CompState) : CompState × Bool :=
  if c.status = .running then (c, false)
  else ({ c with stopEventSet := false, threadsSpawned := c.threadsSpawned + 1 }, true)

/-- `Component.stop`: a no-op once stopped; otherwise the stop event is
set. -/
def stop (c : CompState) : CompState :=
  if c.status = .stopped then c
  else { c with stopEventSet := true }

/-- The entry of `Component._safe_run` inside the worker thread: status
moves to RUNNING and the start time is stamped. -/
def safeRunEnter (now : Nat) (c : CompState) : CompState :=
  { c with status := .running, startedAt := some now }

/-- The exit of `Component._safe_run`: whatever `run()` did — returned or
raised, carried here as an `Except` value — only the `finally` clause
runs: status moves to STOPPED.  Nothing records the exception: `_error`
is never assigned anywhere in the source. -/
def safeRunExit (runResult : Except String Unit) (c : CompState) : CompState :=
  match runResult with
  | .ok _ => { c with status := .stopped }
  | .error _ => { c with status := .stopped }

/-- A whole `_safe_run` execution of the worker thread. -/
def safeRun (now : Nat) (runResult : Except String Unit) (c : CompState) : CompState :=
  safeRunExit runResult (safeRunEnter now c)

end CompState

/-- `ComponentSnapshot`: `name`, `status`, `started_at` and the composed
channel snapshots.  The model has no error field because the source class
has none. -/
structure ComponentSnapshot where
  name : String
  status : String
  startedAt : Option Nat
  channels : List ChannelSnapshot
deriving DecidableEq

/-- `Component.snapshot`; the output channels' snapshots are passed in,
standing for `[t.snapshot() for t in self.get_output_channels()]`. -/
def CompState.snapshot (c : CompState) (chans : List ChannelSnapshot) :
    ComponentSnapshot :=
  { name := c.name, status := c.status.value, startedAt := c.startedAt,
    channels := chans }

/-! ## Graph mutation service

From src/backend/src/api/graph/service.py and
src/backend/src/api/graph/domain/graph.py.  A node's slot signature is
what `get_output_types` / `get_input_types` return: the tuple of declared
element types, rendered here as strings; `create_edge` checks the slot
arguments for membership in those tuples, so a slot identifier is exactly
a declared element type. -/

/-- `Edge` (pydantic model; equality is field-wise). -/
structure Edge where
  sourceNode : String
  sourceSlot : String
  targetNode : String
  targetSlot : String
deriving DecidableEq

/-- The slot signature of a node's component class: declared output
element types and declared input element types. -/
structure GNode where
  outputTypes : List String
  inputTypes : List String
deriving DecidableEq

/-- `Graph`: nodes keyed by id, plus the edge list. -/
structure Graph where
  nodes : List (String × GNode)
  edges : List Edge
deriving DecidableEq

/-- Lookup by string key in an insertion-ordered dict. -/
def slookup {α : Type} (l : List (String × α)) (k : String) : Option α :=
  match l with
  | [] => none
  | (k', v) :: rest => if k' = k then some v else slookup rest k

/-- Lookup of a node by id (`graph.nodes.get(node_id)`). -/
def Graph.getNode (g : Graph) (nodeId : String) : Option GNode :=
  slookup g.nodes nodeId

/-- Error kinds of the graph-mutation surface.  `create_edge` in the
source raises only the first three; `typeMismatch` and `slotOccupied`
appear in the specification's taxonomy but in no code path. -/
inductive GraphError where
  | nodeNotFound (nodeId : String)
  | slotNotFound (slot : String)
  | edgeExists (e : Edge)
  | typeMismatch
  | slotOccupied
deriving DecidableEq

/-- `create_edge`: both nodes must exist, the source slot must be among
the source class's output types, the target slot among the target class's
input types, and the identical edge must not already be present; then the
edge is appended.  No comparison between the source-side and target-side
element types is made, and no check against other edges sharing the
target slot. -/
def create_edge (g : Graph) (sourceNode sourceSlot targetNode targetSlot : String) :
    Except GraphError Graph :=
  match g.getNode sourceNode with
  | none => .error (.nodeNotFound sourceNode)
  | some source =>
    match g.getNode targetNode with
    | none => .error (.nodeNotFound targetNode)
    | some target =>
      if sourceSlot ∉ source.outputTypes then .error (.slotNotFound sourceSlot)
      else if targetSlot ∉ target.inputTypes then .error (.slotNotFound targetSlot)
      else
        let e : Edge := ⟨sourceNode, sourceSlot, targetNode, targetSlot⟩
        if e ∈ g.edges then .error (.edgeExists e)
        else .ok { g with edges := g.edges ++ [e] }

/-- The trace predicate for a fixed subscriber: the channel is
well-formed, the subscriber's cursor (when present) is at least `n`, and
the tail is at least `n`. -/
def LowerBound {T : Type} (subId n : Nat) (ch : Channel T) : Prop :=
  ChInv ch ∧ ChWF ch
    ∧ (∀ c, alookup ch.cursors subId = some c → n ≤ c)
    ∧ n ≤ ch.offset + ch.items.length

/-- A concrete size function standing for `sys.getsizeof` in examples. -/
def sz : Nat → Nat := fun _ => 8

/-- A component instance that has already run to completion and stopped. -/
def exStopped : CompState :=
  { name := "c", status := .stopped, startedAt := some 1, error := none,
    stopEventSet := true, threadsSpawned := 1 }

/-- A graph whose node `n1` declares the output element type `bytes` and
whose node `n2` declares the input element type `str`. -/
def gMismatch : Graph :=
  { nodes := [("n1", { outputTypes := ["bytes"], inputTypes := [] }),
              ("n2", { outputTypes := [], inputTypes := ["str"] })],
    edges := [] }

/-- Three nodes, no edges yet: two producers `a`, `b` of element type
`str` and one consumer `t` with a single `str` input slot. -/
def gOcc : Graph :=
  { nodes := [("a", { outputTypes := ["str"], inputTypes := [] }),
              ("b", { outputTypes := ["str"], inputTypes := [] }),
              ("t", { outputTypes := [], inputTypes := ["str"] })],
    edges := [] }

/-! ## Association-list lemmas -/

section ALemmas

variable {α : Type}

theorem alookup_aset_self (l : List (Nat × α)) (k : Nat) (v : α) :
    alookup (aset l k v) k = some v := by
  induction l with
  | nil => simp [aset, alookup]
  | cons p rest ih =>
    obtain ⟨k', v'⟩ := p
    by_cases h : k' = k
    · subst h
      simp [aset, alookup]
    · simp only [aset, if_neg h, alookup, if_neg h]
      exact ih

theorem alookup_aset_ne (l : List (Nat × α)) (k q : Nat) (v : α) (h : q ≠ k) :
    alookup (aset l k v) q = alookup l q := by
  induction l with
  | nil =>
    simp only [aset, alookup, if_neg (Ne.symm h)]
  | cons p rest ih =>
    obtain ⟨k', v'⟩ := p
    by_cases hk : k' = k
    · subst hk
      simp only [aset, if_pos rfl, alookup, if_neg (Ne.symm h)]
    · simp only [aset, if_neg hk, alookup]
      by_cases hq : k' = q
      · simp only [if_pos hq]
      · simp only [if_neg hq]
        exact ih

theorem mem_aset_self (l : List (Nat × α)) (k : Nat) (v : α) :
    (k, v) ∈ aset l k v := by
  induction l with
  | nil => simp [aset]
  | cons p rest ih =>
    obtain ⟨k', v'⟩ := p
    by_cases h : k' = k
    · simp [aset, h]
    · simp only [aset, if_neg h, List.mem_cons]
      exact Or.inr ih

theorem mem_aset (l : List (Nat × α)) (k : Nat) (v : α) (p : Nat × α)
    (h : p ∈ aset l k v) : p = (k, v) ∨ p ∈ l := by
  induction l with
  | nil => simpa [aset] using h
  | cons q rest ih =>
    obtain ⟨k', v'⟩ := q
    by_cases hk : k' = k
    · simp only [aset, if_pos hk, List.mem_cons] at h
      rcases h with h | h
      · exact Or.inl h
      · exact Or.inr (List.mem_cons_of_mem _ h)
    · simp only [aset, if_neg hk, List.mem_cons] at h
      rcases h with h | h
      · exact Or.inr (by simp [h])
      · rcases ih h with h' | h'
        · exact Or.inl h'
        · exact Or.inr (List.mem_cons_of_mem _ h')

theorem aset_ne_nil (l : List (Nat × α)) (k : Nat) (v : α) : aset l k v ≠ [] := by
  cases l with
  | nil => simp [aset]
  | cons p rest =>
    obtain ⟨k', v'⟩ := p
    by_cases h : k' = k <;> simp [aset, h]

theorem aremove_sublist (l : List (Nat × α)) (k : Nat) :
    List.Sublist (aremove l k) l := by
  induction l with
  | nil => simp [aremove]
  | cons p rest ih =>
    obtain ⟨k', v'⟩ := p
    by_cases h : k' = k
    · simp only [aremove, if_pos h]
      exact List.Sublist.cons _ (List.Sublist.refl rest)
    · simp only [aremove, if_neg h]
      exact List.Sublist.cons₂ _ ih

theorem mem_aremove (l : List (Nat × α)) (k : Nat) (p : Nat × α)
    (h : p ∈ aremove l k) : p ∈ l :=
  (aremove_sublist l k).subset h

theorem alookup_eq_none_iff (l : List (Nat × α)) (k : Nat) :
    alookup l k = none ↔ k ∉ l.map Prod.fst := by
  induction l with
  | nil => simp [alookup]
  | cons p rest ih =>
    obtain ⟨k', v'⟩ := p
    by_cases h : k' = k
    · subst h
      simp [alookup]
    · rw [alookup, if_neg h, ih]
      simp only [List.map_cons, List.mem_cons]
      constructor
      · intro hn h'
        rcases h' with h' | h'
        · exact h h'.symm
        · exact hn h'
      · intro hn h'
        exact hn (Or.inr h')

theorem alookup_aremove_self (l : List (Nat × α)) (k : Nat)
    (h : (l.map Prod.fst).Nodup) : alookup (aremove l k) k = none := by
  induction l with
  | nil => simp [aremove, alookup]
  | cons p rest ih =>
    obtain ⟨k', v'⟩ := p
    simp only [List.map_cons, List.nodup_cons] at h
    by_cases hk : k' = k
    · subst hk
      rw [aremove, if_pos rfl, alookup_eq_none_iff]
      exact h.1
    · rw [aremove, if_neg hk, alookup, if_neg hk]
      exact ih h.2

theorem alookup_aremove_ne (l : List (Nat × α)) (k q : Nat) (h : q ≠ k) :
    alookup (aremove l k) q = alookup l q := by
  induction l with
  | nil => simp [aremove]
  | cons p rest ih =>
    obtain ⟨k', v'⟩ := p
    by_cases hk : k' = k
    · subst hk
      rw [aremove, if_pos rfl, alookup, if_neg (Ne.symm h)]
    · by_cases hq : k' = q
      · rw [aremove, if_neg hk, alookup, if_pos hq, alookup, if_pos hq]
      · rw [aremove, if_neg hk, alookup, if_neg hq, alookup, if_neg hq, ih]

theorem mem_of_alookup (l : List (Nat × α)) (k : Nat) (v : α)
    (h : alookup l k = some v) : (k, v) ∈ l := by
  induction l with
  | nil => simp [alookup] at h
  | cons p rest ih =>
    obtain ⟨k', v'⟩ := p
    by_cases hk : k' = k
    · subst hk
      rw [alookup, if_pos rfl] at h
      injection h with h
      subst h
      exact List.mem_cons_self _ _
    · rw [alookup, if_neg hk] at h
      exact List.mem_cons_of_mem _ (ih h)

theorem keys_aset_of_mem (l : List (Nat × α)) (k : Nat) (v : α)
    (h : k ∈ l.map Prod.fst) :
    (aset l k v).map Prod.fst = l.map Prod.fst := by
  induction l with
  | nil => simp at h
  | cons p rest ih =>
    obtain ⟨k', v'⟩ := p
    by_cases hk : k' = k
    · simp [aset, hk]
    · simp only [List.map_cons, List.mem_cons] at h
      rcases h with h | h
      · exact absurd h.symm hk
      · simp [aset, hk, ih h]

theorem keys_mem_aset (l : List (Nat × α)) (k : Nat) (v : α) (x : Nat)
    (h : x ∈ (aset l k v).map Prod.fst) : x ∈ l.map Prod.fst ∨ x = k := by
  rcases List.mem_map.1 h with ⟨p, hp, hx⟩
  rcases mem_aset l k v p hp with h' | h'
  · exact Or.inr (by rw [← hx, h'])
  · exact Or.inl (hx ▸ List.mem_map_of_mem _ h')

theorem keys_aset_nodup (l : List (Nat × α)) (k : Nat) (v : α)
    (h : (l.map Prod.fst).Nodup) : ((aset l k v).map Prod.fst).Nodup := by
  induction l with
  | nil => simp [aset]
  | cons p rest ih =>
    obtain ⟨k', v'⟩ := p
    simp only [List.map_cons, List.nodup_cons] at h
    by_cases hk : k' = k
    · subst hk
      simpa [aset] using h
    · simp only [aset, if_neg hk, List.map_cons, List.nodup_cons]
      refine ⟨fun hmem => ?_, ih h.2⟩
      rcases keys_mem_aset rest k v k' hmem with h' | h'
      · exact h.1 h'
      · exact hk h'

theorem alookup_azero (l : List (Nat × Nat)) (k : Nat) :
    alookup (azero l) k = (alookup l k).map (fun _ => 0) := by
  induction l with
  | nil => simp [azero, alookup]
  | cons p rest ih =>
    obtain ⟨k', v'⟩ := p
    by_cases h : k' = k
    · simp [azero, alookup, h]
    · simpa [azero, alookup, h] using ih

theorem azero_snd (l : List (Nat × Nat)) :
    (azero l).map Prod.snd = List.replicate l.length 0 := by
  induction l with
  | nil => simp [azero]
  | cons p rest ih => simpa [azero, List.replicate_succ] using ih

end ALemmas

/-! ## minList lemmas -/

theorem nat_min_choice (a b : Nat) : Nat.min a b = a ∨ Nat.min a b = b := by
  rcases Nat.le_total a b with h | h
  · exact Or.inl (Nat.min_eq_left h)
  · exact Or.inr (Nat.min_eq_right h)

theorem foldl_min_le_init (l : List Nat) (a : Nat) : l.foldl Nat.min a ≤ a := by
  induction l generalizing a with
  | nil => simp
  | cons b t ih => exact le_trans (ih (Nat.min a b)) (Nat.min_le_left a b)

theorem foldl_min_le_mem (l : List Nat) (a y : Nat) (h : y ∈ l) :
    l.foldl Nat.min a ≤ y := by
  induction l generalizing a with
  | nil => simp at h
  | cons b t ih =>
    rcases List.mem_cons.1 h with h' | h'
    · subst h'
      exact le_trans (foldl_min_le_init t (Nat.min a y)) (Nat.min_le_right a y)
    · exact ih (Nat.min a b) h'

theorem foldl_min_cases (l : List Nat) (a : Nat) :
    l.foldl Nat.min a = a ∨ l.foldl Nat.min a ∈ l := by
  induction l generalizing a with
  | nil => exact Or.inl rfl
  | cons b t ih =>
    rcases ih (Nat.min a b) with h | h
    · rcases nat_min_choice a b with hm | hm
      · exact Or.inl (by rw [List.foldl_cons, h, hm])
      · refine Or.inr ?_
        rw [List.foldl_cons, h, hm]
        exact List.mem_cons_self b t
    · exact Or.inr (List.mem_cons_of_mem _ h)

theorem minList_le (l : List Nat) (y : Nat) (h : y ∈ l) : minList l ≤ y := by
  cases l with
  | nil => simp at h
  | cons x t =>
    rcases List.mem_cons.1 h with h' | h'
    · subst h'
      simpa only [minList] using foldl_min_le_init t y
    · simpa only [minList] using foldl_min_le_mem t x y h'

theorem minList_mem (l : List Nat) (h : l ≠ []) : minList l ∈ l := by
  cases l with
  | nil => exact absurd rfl h
  | cons x t =>
    rcases foldl_min_cases t x with h' | h'
    · simp only [minList, h']
      exact List.mem_cons_self x t
    · simp only [minList]
      exact List.mem_cons_of_mem _ h'


/-! ## GC lemmas -/

namespace Channel

theorem gc_cursors (ch : Channel T) : (gc ch).cursors = ch.cursors := by
  unfold gc
  split
  · rfl
  · dsimp only
    split <;> rfl

theorem gc_subMsg (ch : Channel T) :
    (gc ch).subMsgCountDelta = ch.subMsgCountDelta := by
  unfold gc
  split
  · rfl
  · dsimp only
    split <;> rfl

theorem gc_subByte (ch : Channel T) :
    (gc ch).subByteCountDelta = ch.subByteCountDelta := by
  unfold gc
  split
  · rfl
  · dsimp only
    split <;> rfl

theorem gc_offset_eq_min (ch : Channel T) (hne : ch.cursors ≠ [])
    (hlb : ∀ p ∈ ch.cursors, ch.offset ≤ p.2) :
    (gc ch).offset = minList (ch.cursors.map Prod.snd) := by
  have hmapne : ch.cursors.map Prod.snd ≠ [] := fun h => hne (List.map_eq_nil_iff.1 h)
  have hmem := minList_mem (ch.cursors.map Prod.snd) hmapne
  rcases List.mem_map.1 hmem with ⟨p, hp, hpv⟩
  have hlow : ch.offset ≤ minList (ch.cursors.map Prod.snd) := hpv ▸ (hlb p hp)
  unfold gc
  rw [if_neg hne]
  by_cases hd : 0 < minList (ch.cursors.map Prod.snd) - ch.offset
  · rw [if_pos hd]
    show ch.offset + (minList (ch.cursors.map Prod.snd) - ch.offset) = _
    omega
  · rw [if_neg hd]
    show ch.offset = _
    omega

theorem gc_total (ch : Channel T)
    (hub : ∀ p ∈ ch.cursors, p.2 ≤ ch.offset + ch.items.length) :
    (gc ch).offset + (gc ch).items.length = ch.offset + ch.items.length := by
  unfold gc
  split
  · rfl
  · rename_i hne
    by_cases hd : 0 < minList (ch.cursors.map Prod.snd) - ch.offset
    · rw [if_pos hd]
      have hmapne : ch.cursors.map Prod.snd ≠ [] := fun h => hne (List.map_eq_nil_iff.1 h)
      have hmem := minList_mem (ch.cursors.map Prod.snd) hmapne
      rcases List.mem_map.1 hmem with ⟨p, hp, hpv⟩
      have hle : minList (ch.cursors.map Prod.snd) ≤ ch.offset + ch.items.length :=
        hpv ▸ (hub p hp)
      show ch.offset + (minList (ch.cursors.map Prod.snd) - ch.offset)
          + (ch.items.drop (minList (ch.cursors.map Prod.snd) - ch.offset)).length
          = ch.offset + ch.items.length
      rw [List.length_drop]
      omega
    · rw [if_neg hd]

theorem gc_ChInv (ch : Channel T) (h : ChInv ch) : ChInv (gc ch) := by
  intro p hp
  rw [gc_cursors] at hp
  have htot := gc_total ch (fun q hq => (h q hq).2)
  constructor
  · by_cases hne : ch.cursors = []
    · rw [hne] at hp
      simp at hp
    · have hoff := gc_offset_eq_min ch hne (fun q hq => (h q hq).1)
      rw [hoff]
      exact minList_le _ _ (List.mem_map_of_mem _ hp)
  · have := (h p hp).2
    omega

theorem gc_ChWF (ch : Channel T) (h : ChWF ch) : ChWF (gc ch) := by
  unfold ChWF at h ⊢
  rw [gc_cursors]
  exact h

/-! ## `waitAndGet` case analysis -/

/-- Either `_wait_and_get` leaves the channel untouched and returns no
item (missing id, nothing to read, or an impossible index), or it
delivers the item under the cursor and runs GC on the advanced state. -/
theorem waitAndGet_snd (size : T → Nat) (ch : Channel T) (subId : Nat) (stop : Bool) :
    ((ch.waitAndGet size subId stop).2 = ch
      ∧ ∀ x, (ch.waitAndGet size subId stop).1 ≠ .item x)
    ∨ ∃ index x,
        alookup ch.cursors subId = some index
        ∧ index < ch.offset + ch.items.length
        ∧ ch.items.get? (index - ch.offset) = some x
        ∧ ch.waitAndGet size subId stop =
            (.item x,
              gc { ch with
                    cursors := aset ch.cursors subId (index + 1),
                    subMsgCountDelta :=
                      aset ch.subMsgCountDelta subId
                        (agetD ch.subMsgCountDelta subId 0 + 1),
                    subByteCountDelta :=
                      aset ch.subByteCountDelta subId
                        (agetD ch.subByteCountDelta subId 0 + size x) }) := by
  unfold waitAndGet
  split
  · exact Or.inl ⟨rfl, fun x h => by cases h⟩
  · rename_i index hcur
    split
    · rename_i hlt
      split
      · exact Or.inl ⟨rfl, fun x h => by cases h⟩
      · rename_i x hget
        exact Or.inr ⟨index, x, hcur, hlt, hget, rfl⟩
    · split
      · exact Or.inl ⟨rfl, fun x h => by cases h⟩
      · exact Or.inl ⟨rfl, fun x h => by cases h⟩

/-- When `_wait_and_get` returns an item, characterize the outcome. -/
theorem waitAndGet_item (size : T → Nat) (ch : Channel T) (subId : Nat)
    (stop : Bool) (x : T) (ch' : Channel T)
    (h : ch.waitAndGet size subId stop = (.item x, ch')) :
    ∃ index,
      alookup ch.cursors subId = some index
      ∧ index < ch.offset + ch.items.length
      ∧ ch.items.get? (index - ch.offset) = some x
      ∧ ch' = gc { ch with
            cursors := aset ch.cursors subId (index + 1),
            subMsgCountDelta :=
              aset ch.subMsgCountDelta subId (agetD ch.subMsgCountDelta subId 0 + 1),
            subByteCountDelta :=
              aset ch.subByteCountDelta subId
                (agetD ch.subByteCountDelta subId 0 + size x) } := by
  rcases waitAndGet_snd size ch subId stop with ⟨hch, hne⟩ | ⟨index, y, h1, h2, h3, h4⟩
  · exact absurd (congrArg Prod.fst h) (hne x)
  · rw [h4] at h
    rw [Prod.mk.injEq] at h
    obtain ⟨h5, h6⟩ := h
    injection h5 with h5
    subst h5
    exact ⟨index, h1, h2, h3, h6.symm⟩

end Channel


/-! ## Operation preservation of the channel invariants -/

theorem applyOp_ChInv {T : Type} (size : T → Nat) (ch : Channel T) (op : ChOp T)
    (h : ChInv ch) : ChInv (applyOp size ch op) := by
  cases op with
  | send now item =>
    dsimp [applyOp, Channel.send]
    split
    · exact h
    · intro p hp
      have := h p hp
      dsimp at hp ⊢
      rw [List.length_append]
      omega
  | register k =>
    dsimp [applyOp, Channel.register]
    intro p hp
    dsimp at hp ⊢
    rcases mem_aset _ _ _ p hp with h' | h'
    · rw [h']
      omega
    · exact h p h'
  | waitGet k stop =>
    rcases Channel.waitAndGet_snd size ch k stop with ⟨heq, _⟩ | ⟨index, x, h1, h2, h3, h4⟩
    · dsimp [applyOp]
      rw [heq]
      exact h
    · dsimp [applyOp]
      rw [h4]
      apply Channel.gc_ChInv
      intro p hp
      dsimp at hp ⊢
      have hmem := mem_of_alookup _ _ _ h1
      have hidx := h _ hmem
      rcases mem_aset _ _ _ p hp with h' | h'
      · rw [h']
        dsimp
        omega
      · exact h p h'
  | unregister k =>
    dsimp [applyOp, Channel.unregister]
    split
    · exact h
    · apply Channel.gc_ChInv
      intro p hp
      dsimp at hp ⊢
      exact h p (mem_aremove _ _ _ hp)
  | snap =>
    dsimp [applyOp, Channel.snapshot]
    intro p hp
    dsimp at hp ⊢
    exact h p hp

theorem applyOp_ChWF {T : Type} (size : T → Nat) (ch : Channel T) (op : ChOp T)
    (h : ChWF ch) : ChWF (applyOp size ch op) := by
  cases op with
  | send now item =>
    dsimp [applyOp, Channel.send]
    split
    · exact h
    · exact h
  | register k =>
    dsimp [applyOp, Channel.register, ChWF]
    exact keys_aset_nodup _ _ _ h
  | waitGet k stop =>
    rcases Channel.waitAndGet_snd size ch k stop with ⟨heq, _⟩ | ⟨index, x, h1, h2, h3, h4⟩
    · dsimp [applyOp]
      rw [heq]
      exact h
    · dsimp [applyOp]
      rw [h4]
      dsimp [ChWF]
      rw [Channel.gc_cursors]
      exact keys_aset_nodup _ _ _ h
  | unregister k =>
    dsimp [applyOp, Channel.unregister]
    split
    · exact h
    · dsimp [ChWF]
      rw [Channel.gc_cursors]
      dsimp
      exact h.sublist (List.Sublist.map _ (aremove_sublist _ _))
  | snap =>
    dsimp [applyOp, Channel.snapshot]
    exact h

theorem applyOps_invariant {T : Type} (size : T → Nat) (P : Channel T → Prop)
    (hstep : ∀ ch op, P ch → P (applyOp size ch op)) :
    ∀ (ops : List (ChOp T)) (ch : Channel T), P ch → P (applyOps size ch ops) := by
  intro ops
  induction ops with
  | nil => exact fun ch h => h
  | cons op rest ih => exact fun ch h => ih (applyOp size ch op) (hstep ch op h)

theorem reachableFrom_inv {T : Type} (size : T → Nat) (ch0 ch : Channel T)
    (h : ReachableFrom size ch0 ch) (h0 : ChInv ch0 ∧ ChWF ch0) :
    ChInv ch ∧ ChWF ch := by
  rcases h with ⟨ops, rfl⟩
  exact applyOps_invariant size (fun c => ChInv c ∧ ChWF c)
    (fun c op hc => ⟨applyOp_ChInv size c op hc.1, applyOp_ChWF size c op hc.2⟩)
    ops ch0 h0

theorem mk0_inv (T : Type) (name : String) :
    ChInv (Channel.mk0 T name) ∧ ChWF (Channel.mk0 T name) := by
  constructor
  · intro p hp
    cases hp
  · exact List.nodup_nil

theorem reachable_inv {T : Type} (size : T → Nat) (name : String) (ch : Channel T)
    (h : Reachable size name ch) : ChInv ch ∧ ChWF ch :=
  reachableFrom_inv size _ ch h (mk0_inv T name)


/-! ## Cursor lower bound along traces (no history is ever re-delivered) -/

theorem applyOp_LowerBound {T : Type} (size : T → Nat) (subId n : Nat)
    (ch : Channel T) (op : ChOp T) (h : LowerBound subId n ch) :
    LowerBound subId n (applyOp size ch op) := by
  obtain ⟨hinv, hwf, hlow, htot⟩ := h
  refine ⟨applyOp_ChInv size ch op hinv, applyOp_ChWF size ch op hwf, ?_⟩
  cases op with
  | send now item =>
    dsimp [applyOp, Channel.send]
    split
    · exact ⟨hlow, htot⟩
    · refine ⟨hlow, ?_⟩
      dsimp
      rw [List.length_append]
      omega
  | register k =>
    dsimp [applyOp, Channel.register]
    by_cases hk : k = subId
    · subst hk
      refine ⟨?_, htot⟩
      intro c hc
      rw [alookup_aset_self] at hc
      injection hc with hc
      omega
    · refine ⟨?_, htot⟩
      intro c hc
      rw [alookup_aset_ne _ _ _ _ (fun h' => hk h'.symm)] at hc
      exact hlow c hc
  | waitGet k stop =>
    rcases Channel.waitAndGet_snd size ch k stop with ⟨heq, _⟩ | ⟨index, x, h1, h2, h3, h4⟩
    · dsimp [applyOp]
      rw [heq]
      exact ⟨hlow, htot⟩
    · dsimp [applyOp]
      rw [h4]
      dsimp
      have hub : ∀ p ∈ (aset ch.cursors k (index + 1)), p.2 ≤ ch.offset + ch.items.length := by
        intro p hp
        rcases mem_aset _ _ _ p hp with h' | h'
        · rw [h']
          omega
        · exact (hinv p h').2
      have htotal := Channel.gc_total
        { ch with
          cursors := aset ch.cursors k (index + 1),
          subMsgCountDelta :=
            aset ch.subMsgCountDelta k (agetD ch.subMsgCountDelta k 0 + 1),
          subByteCountDelta :=
            aset ch.subByteCountDelta k (agetD ch.subByteCountDelta k 0 + size x) }
        hub
      constructor
      · intro c hc
        rw [Channel.gc_cursors] at hc
        dsimp at hc
        by_cases hk : k = subId
        · subst hk
          rw [alookup_aset_self] at hc
          injection hc with hc
          have := hlow index h1
          omega
        · rw [alookup_aset_ne _ _ _ _ (fun h' => hk h'.symm)] at hc
          exact hlow c hc
      · dsimp at htotal
        omega
  | unregister k =>
    dsimp [applyOp, Channel.unregister]
    split
    · exact ⟨hlow, htot⟩
    · have hub : ∀ p ∈ (aremove ch.cursors k), p.2 ≤ ch.offset + ch.items.length :=
        fun p hp => (hinv p (mem_aremove _ _ _ hp)).2
      have htotal := Channel.gc_total
        { ch with
          cursors := aremove ch.cursors k,
          subMsgCountDelta := aremove ch.subMsgCountDelta k,
          subByteCountDelta := aremove ch.subByteCountDelta k }
        hub
      constructor
      · intro c hc
        rw [Channel.gc_cursors] at hc
        dsimp at hc
        by_cases hk : k = subId
        · subst hk
          rw [alookup_aremove_self _ _ hwf] at hc
          cases hc
        · rw [alookup_aremove_ne _ _ _ (fun h' => hk h'.symm)] at hc
          exact hlow c hc
      · dsimp at htotal
        omega
  | snap =>
    dsimp [applyOp, Channel.snapshot]
    exact ⟨hlow, htot⟩

theorem reachableFrom_LowerBound {T : Type} (size : T → Nat) (subId n : Nat)
    (ch0 ch : Channel T) (h : ReachableFrom size ch0 ch)
    (h0 : LowerBound subId n ch0) : LowerBound subId n ch := by
  rcases h with ⟨ops, rfl⟩
  exact applyOps_invariant size (LowerBound subId n)
    (fun c op hc => applyOp_LowerBound size subId n c op hc) ops ch0 h0


/-! ## Small helpers for snapshot and create_edge reasoning -/

theorem agetD_azero (l : List (Nat × Nat)) (k : Nat) : agetD (azero l) k 0 = 0 := by
  rw [agetD, alookup_azero]
  cases alookup l k <;> rfl

theorem map_eq_replicate {β γ : Type} (l : List β) (f : β → γ) (c : γ)
    (h : ∀ a ∈ l, f a = c) : l.map f = List.replicate l.length c := by
  induction l with
  | nil => rfl
  | cons a t ih =>
    rw [List.map_cons, List.length_cons, List.replicate_succ,
      h a (List.mem_cons_self a t), ih (fun b hb => h b (List.mem_cons_of_mem a hb))]

theorem create_edge_ok_eq (g : Graph) (sn ss tn ts : String) (src tgt : GNode)
    (hs : g.getNode sn = some src) (hss : ss ∈ src.outputTypes)
    (ht : g.getNode tn = some tgt) (hts : ts ∈ tgt.inputTypes)
    (hd : (⟨sn, ss, tn, ts⟩ : Edge) ∉ g.edges) :
    create_edge g sn ss tn ts = .ok { g with edges := g.edges ++ [⟨sn, ss, tn, ts⟩] } := by
  unfold create_edge
  rw [hs, ht]
  dsimp only
  rw [if_neg (fun hcon => hcon hss), if_neg (fun hcon => hcon hts), if_neg hd]

theorem create_edge_error_shape (g : Graph) (sn ss tn ts : String) (err : GraphError)
    (h : create_edge g sn ss tn ts = .error err) :
    err = .nodeNotFound sn ∨ err = .nodeNotFound tn
      ∨ err = .slotNotFound ss ∨ err = .slotNotFound ts
      ∨ err = .edgeExists ⟨sn, ss, tn, ts⟩ := by
  unfold create_edge at h
  split at h
  · injection h with h
    exact Or.inl h.symm
  · split at h
    · injection h with h
      exact Or.inr (Or.inl h.symm)
    · split at h
      · injection h with h
        exact Or.inr (Or.inr (Or.inl h.symm))
      · split at h
        · injection h with h
          exact Or.inr (Or.inr (Or.inr (Or.inl h.symm)))
        · dsimp only at h
          split at h
          · injection h with h
            exact Or.inr (Or.inr (Or.inr (Or.inr h.symm)))
          · cases h

theorem create_edge_ok_shape (g : Graph) (sn ss tn ts : String) (g' : Graph)
    (h : create_edge g sn ss tn ts = .ok g') :
    (∃ src, g.getNode sn = some src ∧ ss ∈ src.outputTypes)
    ∧ (∃ tgt, g.getNode tn = some tgt ∧ ts ∈ tgt.inputTypes)
    ∧ (⟨sn, ss, tn, ts⟩ : Edge) ∉ g.edges
    ∧ g' = { g with edges := g.edges ++ [⟨sn, ss, tn, ts⟩] } := by
  unfold create_edge at h
  split at h
  · cases h
  · rename_i src hs
    split at h
    · cases h
    · rename_i tgt ht
      split at h
      · cases h
      · rename_i hss
        split at h
        · cases h
        · rename_i hts
          dsimp only at h
          split at h
          · cases h
          · rename_i hd
            injection h with h
            exact ⟨⟨src, hs, not_not.1 hss⟩, ⟨tgt, ht, not_not.1 hts⟩, hd, h.symm⟩


/-! ## Claim theorems -/

/-- C1: publishing on a channel with zero registered subscribers is a
no-op — the item is not appended and neither `msg_count_delta` nor
`byte_count_delta` grows — while with at least one subscriber the item is
appended and `msg_count_delta` increases by exactly one (and
`byte_count_delta` by the item's size). -/
theorem claim_C1_send_drop_policy {T : Type} (size : T → Nat) (now : Nat)
    (ch : Channel T) (item : T) :
    (ch.cursors = [] → ch.send size now item = ch)
    ∧ (ch.cursors ≠ [] →
        (ch.send size now item).items = ch.items ++ [item]
        ∧ (ch.send size now item).msgCountDelta = ch.msgCountDelta + 1
        ∧ (ch.send size now item).byteCountDelta = ch.byteCountDelta + size item) := by
  constructor
  · intro h
    simp [Channel.send, h]
  · intro h
    simp [Channel.send, h]

/-- C1 witness: dropping on the fresh channel, appending after one
registration. -/
theorem claim_C1_send_drop_policy_witness :
    ((Channel.mk0 Nat "c").send sz 5 3 = Channel.mk0 Nat "c")
    ∧ (((Channel.mk0 Nat "c").register 1).send sz 5 3).items
        = ((Channel.mk0 Nat "c").register 1).items ++ [3]
    ∧ (((Channel.mk0 Nat "c").register 1).send sz 5 3).msgCountDelta
        = ((Channel.mk0 Nat "c").register 1).msgCountDelta + 1
    ∧ (((Channel.mk0 Nat "c").register 1).send sz 5 3).byteCountDelta
        = ((Channel.mk0 Nat "c").register 1).byteCountDelta + sz 3 := by
  refine ⟨(claim_C1_send_drop_policy sz 5 (Channel.mk0 Nat "c") 3).1 rfl, ?_⟩
  exact (claim_C1_send_drop_policy sz 5 ((Channel.mk0 Nat "c").register 1) 3).2 (by decide)

/-- C4 counterexample: `stopped` is not terminal.  On a stopped component
`start()` is not rejected: it spawns a fresh worker thread, and when that
worker enters `_safe_run` the status returns to `running`. -/
theorem claim_C4_counterexample :
    exStopped.status = .stopped
    ∧ (exStopped.start).2 = true
    ∧ (exStopped.start).1.threadsSpawned = exStopped.threadsSpawned + 1
    ∧ (CompState.safeRunEnter 2 (exStopped.start).1).status = .running := by
  decide

/-- C4 (amended): `start()` is a rejected no-op exactly when the status is
`running`; from any other status — including `stopped` — it clears the
stop event, spawns a new worker, and the worker's entry into `_safe_run`
moves the status (back) to `running`. -/
theorem claim_C4_start_no_op_only_when_running (c : CompState) :
    (c.status = .running → c.start = (c, false))
    ∧ (c.status ≠ .running →
        (c.start).2 = true
        ∧ (c.start).1.stopEventSet = false
        ∧ (c.start).1.threadsSpawned = c.threadsSpawned + 1
        ∧ ∀ now, (CompState.safeRunEnter now (c.start).1).status = .running) := by
  constructor
  · intro h
    simp [CompState.start, h]
  · intro h
    simp [CompState.start, h, CompState.safeRunEnter]

/-- C4 witness: the amended statement at a stopped instance. -/
theorem claim_C4_start_no_op_only_when_running_witness :
    (exStopped.start).2 = true
    ∧ (exStopped.start).1.stopEventSet = false
    ∧ (exStopped.start).1.threadsSpawned = exStopped.threadsSpawned + 1
    ∧ (CompState.safeRunEnter 2 (exStopped.start).1).status = .running := by
  have h := (claim_C4_start_no_op_only_when_running exStopped).2 (by decide)
  exact ⟨h.1, h.2.1, h.2.2.1, h.2.2.2 2⟩

/-- C6 counterexample: a `run()` body that raises leaves exactly the same
instance state — and hence exactly the same snapshot — as one that
returns normally: nothing records the error (`_error` stays `None`) and
the snapshot carries no error field, so the fault is not surfaced. -/
theorem claim_C6_counterexample :
    CompState.safeRun 7 (Except.error "boom") (CompState.mk0 "X")
      = CompState.safeRun 7 (Except.ok ()) (CompState.mk0 "X")
    ∧ (CompState.safeRun 7 (Except.error "boom") (CompState.mk0 "X")).error = none
    ∧ (CompState.safeRun 7 (Except.error "boom") (CompState.mk0 "X")).snapshot []
        = (CompState.safeRun 7 (Except.ok ()) (CompState.mk0 "X")).snapshot [] := by
  refine ⟨rfl, rfl, rfl⟩

/-- C6 (amended): an exception in `run()` still produces the final
transition to `stopped` and never reaches graph-level callers (the worker
state is a total function of the run result), but the error is **not**
recorded — `_error` is never assigned — and the snapshot is identical to
that of a clean run, so the fault is invisible in telemetry. -/
theorem claim_C6_fault_not_surfaced (c : CompState) (now : Nat)
    (r : Except String Unit) :
    (CompState.safeRun now r c).status = .stopped
    ∧ (CompState.safeRun now r c).error = c.error
    ∧ (∀ r', CompState.safeRun now r c = CompState.safeRun now r' c)
    ∧ ∀ chans, (CompState.safeRun now r c).snapshot chans
        = (CompState.safeRun now (Except.ok ()) c).snapshot chans := by
  refine ⟨?_, ?_, ?_, ?_⟩
  · cases r <;> rfl
  · cases r <;> rfl
  · intro r'
    cases r <;> cases r' <;> rfl
  · intro chans
    cases r <;> rfl

/-- C7: `Channel.snapshot` resets every delta counter (channel-level and
per-subscriber) while leaving buffer, offset, cursors and
`last_send_time` unchanged; a second snapshot with no interleaving
operation therefore reports all deltas as zero with the same lags and the
same buffer depth. -/
theorem claim_C7_snapshot_resets_deltas {T : Type} (ch : Channel T) :
    (ch.snapshot.2.items = ch.items
      ∧ ch.snapshot.2.offset = ch.offset
      ∧ ch.snapshot.2.cursors = ch.cursors
      ∧ ch.snapshot.2.lastSendTime = ch.lastSendTime)
    ∧ (ch.snapshot.2.msgCountDelta = 0
      ∧ ch.snapshot.2.byteCountDelta = 0
      ∧ ch.snapshot.2.subMsgCountDelta.map Prod.snd
          = List.replicate ch.subMsgCountDelta.length 0
      ∧ ch.snapshot.2.subByteCountDelta.map Prod.snd
          = List.replicate ch.subByteCountDelta.length 0)
    ∧ (ch.snapshot.2.snapshot.1.msgCountDelta = 0
      ∧ ch.snapshot.2.snapshot.1.byteCountDelta = 0
      ∧ ch.snapshot.2.snapshot.1.bufferDepth = ch.snapshot.1.bufferDepth
      ∧ ch.snapshot.2.snapshot.1.subscribers.map (fun q => (q.1, q.2.lag))
          = ch.snapshot.1.subscribers.map (fun q => (q.1, q.2.lag))
      ∧ ch.snapshot.2.snapshot.1.subscribers.map (fun q => q.2.msgCountDelta)
          = List.replicate ch.snapshot.1.subscribers.length 0
      ∧ ch.snapshot.2.snapshot.1.subscribers.map (fun q => q.2.byteCountDelta)
          = List.replicate ch.snapshot.1.subscribers.length 0) := by
  refine ⟨⟨rfl, rfl, rfl, rfl⟩, ⟨rfl, rfl, azero_snd _, azero_snd _⟩, rfl, rfl, rfl, ?_, ?_, ?_⟩
  · dsimp [Channel.snapshot]
    rw [List.map_map, List.map_map]
    rfl
  · dsimp [Channel.snapshot]
    rw [List.map_map, List.length_map]
    exact map_eq_replicate _ _ _ (fun p _ => agetD_azero ch.subMsgCountDelta p.1)
  · dsimp [Channel.snapshot]
    rw [List.map_map, List.length_map]
    exact map_eq_replicate _ _ _ (fun p _ => agetD_azero ch.subByteCountDelta p.1)


/-- C2 counterexample: the source and target element types differ
(`bytes` vs `str`), yet `create_edge` succeeds and appends the edge — no
`TypeMismatch` is raised. -/
theorem claim_C2_counterexample :
    "bytes" ≠ "str"
    ∧ create_edge gMismatch "n1" "bytes" "n2" "str"
        = .ok { nodes := gMismatch.nodes,
                edges := [⟨"n1", "bytes", "n2", "str"⟩] } := by
  refine ⟨by decide, rfl⟩

/-- C2 (amended): `create_edge` never compares the source-side and
target-side element types and never fails with `TypeMismatch`; it
succeeds exactly when both nodes exist, the source slot is among the
source's declared output types, the target slot is among the target's
declared input types, and the identical edge is not already present — in
which case the edge is appended. -/
theorem claim_C2_no_type_check (g : Graph) (sn ss tn ts : String) :
    (∀ err, create_edge g sn ss tn ts = .error err → err ≠ .typeMismatch)
    ∧ ((∃ g', create_edge g sn ss tn ts = .ok g') ↔
        (∃ src, g.getNode sn = some src ∧ ss ∈ src.outputTypes)
        ∧ (∃ tgt, g.getNode tn = some tgt ∧ ts ∈ tgt.inputTypes)
        ∧ (⟨sn, ss, tn, ts⟩ : Edge) ∉ g.edges)
    ∧ (∀ g', create_edge g sn ss tn ts = .ok g' →
        g'.edges = g.edges ++ [⟨sn, ss, tn, ts⟩] ∧ g'.nodes = g.nodes) := by
  refine ⟨?_, ⟨?_, ?_⟩, ?_⟩
  · intro err herr
    rcases create_edge_error_shape g sn ss tn ts err herr with h | h | h | h | h <;>
      (rw [h]; intro hcon; cases hcon)
  · intro ⟨g', hok⟩
    have h := create_edge_ok_shape g sn ss tn ts g' hok
    exact ⟨h.1, h.2.1, h.2.2.1⟩
  · intro ⟨⟨src, hs, hss⟩, ⟨tgt, ht, hts⟩, hd⟩
    exact ⟨_, create_edge_ok_eq g sn ss tn ts src tgt hs hss ht hts hd⟩
  · intro g' hok
    have h := create_edge_ok_shape g sn ss tn ts g' hok
    rw [h.2.2.2]
    exact ⟨rfl, rfl⟩

/-- C2 witness: the amended characterization at the mismatched-type
graph. -/
theorem claim_C2_no_type_check_witness :
    (∃ g', create_edge gMismatch "n1" "bytes" "n2" "str" = .ok g') := by
  exact (claim_C2_no_type_check gMismatch "n1" "bytes" "n2" "str").2.1.2
    ⟨⟨{ outputTypes := ["bytes"], inputTypes := [] }, by decide, by decide⟩,
     ⟨{ outputTypes := [], inputTypes := ["str"] }, by decide, by decide⟩,
     by decide⟩

/-- C5 counterexample: starting from an edgeless graph, two successive
`create_edge` calls attach two different sources to the *same*
`(target_node, target_slot)` pair; the second call does not fail with
`SlotOccupied`, so a reachable graph holds two edges with the same target
slot. -/
theorem claim_C5_counterexample :
    create_edge gOcc "a" "str" "t" "str"
      = .ok { nodes := gOcc.nodes, edges := [⟨"a", "str", "t", "str"⟩] }
    ∧ create_edge { nodes := gOcc.nodes, edges := [⟨"a", "str", "t", "str"⟩] }
        "b" "str" "t" "str"
      = .ok { nodes := gOcc.nodes,
              edges := [⟨"a", "str", "t", "str"⟩, ⟨"b", "str", "t", "str"⟩] }
    ∧ (⟨"a", "str", "t", "str"⟩ : Edge).targetNode
        = (⟨"b", "str", "t", "str"⟩ : Edge).targetNode
    ∧ (⟨"a", "str", "t", "str"⟩ : Edge).targetSlot
        = (⟨"b", "str", "t", "str"⟩ : Edge).targetSlot := by
  refine ⟨rfl, rfl, rfl, rfl⟩

/-- C5 (amended): `create_edge` never fails with `SlotOccupied`; the only
edge-level rejection is an *identical* duplicate (`EdgeExists`).  In
particular, when both nodes and slots validate and the new edge is not
literally present, the edge is appended even if an existing edge already
has the same `(target_node, target_slot)` pair, so a target input slot
can acquire several upstream edges. -/
theorem claim_C5_no_slot_occupancy_check (g : Graph) (sn ss tn ts : String) :
    (∀ err, create_edge g sn ss tn ts = .error err → err ≠ .slotOccupied)
    ∧ (∀ src tgt, g.getNode sn = some src → ss ∈ src.outputTypes →
        g.getNode tn = some tgt → ts ∈ tgt.inputTypes →
        (⟨sn, ss, tn, ts⟩ : Edge) ∉ g.edges →
        create_edge g sn ss tn ts
          = .ok { g with edges := g.edges ++ [⟨sn, ss, tn, ts⟩] }) := by
  constructor
  · intro err herr
    rcases create_edge_error_shape g sn ss tn ts err herr with h | h | h | h | h <;>
      (rw [h]; intro hcon; cases hcon)
  · intro src tgt hs hss ht hts hd
    exact create_edge_ok_eq g sn ss tn ts src tgt hs hss ht hts hd

/-- C5 witness: the amended statement applied where another edge already
occupies the target slot. -/
theorem claim_C5_no_slot_occupancy_check_witness :
    create_edge { nodes := gOcc.nodes, edges := [⟨"a", "str", "t", "str"⟩] }
        "b" "str" "t" "str"
      = .ok { nodes := gOcc.nodes,
              edges := [⟨"a", "str", "t", "str"⟩] ++ [⟨"b", "str", "t", "str"⟩] } := by
  exact (claim_C5_no_slot_occupancy_check
      { nodes := gOcc.nodes, edges := [⟨"a", "str", "t", "str"⟩] } "b" "str" "t" "str").2
    { outputTypes := ["str"], inputTypes := [] }
    { outputTypes := [], inputTypes := ["str"] }
    (by decide) (by decide) (by decide) (by decide) (by decide)

/-- C9 counterexample: subscriptions are keyed by `id(subscriber)` — the
identity of the owning component.  A second subscription opened by the
same component on the same channel reuses the same key: the cursor dict
still has a single entry and the first subscription's cursor (0) has been
overwritten with the new tail (1), so the two subscriptions are neither
distinctly identified nor independent. -/
theorem claim_C9_counterexample :
    (((Channel.mk0 Nat "c").register 7).cursors = [(7, 0)])
    ∧ ((((Channel.mk0 Nat "c").register 7).send sz 0 99).register 7).cursors = [(7, 1)] := by
  refine ⟨by decide, by decide⟩

/-- C9 (amended): subscription keys are unique per *component*: two
subscriptions owned by distinct components hold distinct entries with
independent cursors and counters, while a repeated registration by the
same component reuses its key — no new entry is created and the stored
cursor is overwritten with the current tail. -/
theorem claim_C9_ids_unique_per_component {T : Type} (ch : Channel T) (i j : Nat) :
    (i ≠ j →
      alookup ((ch.register i).register j).cursors i
          = some (ch.offset + ch.items.length)
      ∧ alookup ((ch.register i).register j).cursors j
          = some ((ch.register i).offset + (ch.register i).items.length)
      ∧ alookup ((ch.register i).register j).subMsgCountDelta i = some 0
      ∧ alookup ((ch.register i).register j).subMsgCountDelta j = some 0)
    ∧ ((ch.register i).register i).cursors.map Prod.fst
        = (ch.register i).cursors.map Prod.fst
    ∧ alookup ((ch.register i).register i).cursors i
        = some ((ch.register i).offset + (ch.register i).items.length) := by
  refine ⟨?_, ?_, ?_⟩
  · intro hij
    dsimp [Channel.register]
    refine ⟨?_, ?_, ?_, ?_⟩
    · rw [alookup_aset_ne _ _ _ _ hij, alookup_aset_self]
    · rw [alookup_aset_self]
    · rw [alookup_aset_ne _ _ _ _ hij, alookup_aset_self]
    · rw [alookup_aset_self]
  · dsimp [Channel.register]
    apply keys_aset_of_mem
    exact List.mem_map_of_mem _ (mem_aset_self _ _ _)
  · dsimp [Channel.register]
    rw [alookup_aset_self]

/-- C9 witness: distinct components 1 and 2 on a fresh channel, and a
repeated registration by component 1. -/
theorem claim_C9_ids_unique_per_component_witness :
    alookup (((Channel.mk0 Nat "c").register 1).register 2).cursors 1 = some 0
    ∧ alookup (((Channel.mk0 Nat "c").register 1).register 2).cursors 2 = some 0
    ∧ (((Channel.mk0 Nat "c").register 1).register 1).cursors.map Prod.fst
        = ((Channel.mk0 Nat "c").register 1).cursors.map Prod.fst := by
  have h := claim_C9_ids_unique_per_component (Channel.mk0 Nat "c") 1 2
  have h1 := h.1 (by decide)
  have h2 := (claim_C9_ids_unique_per_component (Channel.mk0 Nat "c") 1 2).2.1
  exact ⟨h1.1, h1.2.1, h2⟩

/-- C10: once the owner's stop event is set, the next resume of the
`stream` generator yields the terminal sentinel and leaves the channel
untouched — even when unread items sit between the cursor and the tail —
and closing the generator unregisters the subscription: the cursor entry
is removed and GC runs (when it fires with subscribers left, the offset
is tightened to the minimum cursor). -/
theorem claim_C10_stream_cancel_and_close {T : Type} (size : T → Nat)
    (ch : Channel T) (subId : Nat) :
    (∀ c, alookup ch.cursors subId = some c → c < ch.offset + ch.items.length →
      Channel.streamNext size ch subId true = (.sentinel, ch))
    ∧ (ChWF ch → alookup (Channel.streamClose ch subId).cursors subId = none)
    ∧ (ChInv ch → alookup ch.cursors subId ≠ none →
        (Channel.streamClose ch subId).cursors ≠ [] →
        (Channel.streamClose ch subId).offset
          = minList ((Channel.streamClose ch subId).cursors.map Prod.snd)) := by
  refine ⟨?_, ?_, ?_⟩
  · intro c hc hlt
    rfl
  · intro hwf
    dsimp [Channel.streamClose, Channel.unregister]
    split
    · assumption
    · rw [Channel.gc_cursors]
      dsimp
      exact alookup_aremove_self _ _ hwf
  · intro hinv hsome hne
    dsimp only [Channel.streamClose, Channel.unregister] at hne ⊢
    rw [if_neg hsome] at hne ⊢
    rw [Channel.gc_cursors] at hne ⊢
    have hlb : ∀ p ∈ (aremove ch.cursors subId), ch.offset ≤ p.2 :=
      fun p hp => (hinv p (mem_aremove _ _ _ hp)).1
    have hgc := Channel.gc_offset_eq_min
      { ch with
        cursors := aremove ch.cursors subId,
        subMsgCountDelta := aremove ch.subMsgCountDelta subId,
        subByteCountDelta := aremove ch.subByteCountDelta subId }
      (by dsimp only; dsimp only at hne; exact hne) (by dsimp only; exact hlb)
    rw [hgc]

/-- C10 witness: channel with two subscribers and one unread item; the
cancelled resume yields the sentinel without delivering, and closing
subscriber 1's stream removes its cursor and tightens the offset. -/
theorem claim_C10_stream_cancel_and_close_witness :
    Channel.streamNext sz
        (applyOps sz (Channel.mk0 Nat "c") [.register 1, .send 0 5, .register 2]) 1 true
      = (.sentinel, applyOps sz (Channel.mk0 Nat "c") [.register 1, .send 0 5, .register 2])
    ∧ alookup (Channel.streamClose
        (applyOps sz (Channel.mk0 Nat "c") [.register 1, .send 0 5, .register 2]) 1).cursors 1
      = none
    ∧ (Channel.streamClose
        (applyOps sz (Channel.mk0 Nat "c") [.register 1, .send 0 5, .register 2]) 1).offset
      = minList ((Channel.streamClose
        (applyOps sz (Channel.mk0 Nat "c") [.register 1, .send 0 5, .register 2]) 1).cursors.map
          Prod.snd) := by
  have h := claim_C10_stream_cancel_and_close sz
    (applyOps sz (Channel.mk0 Nat "c") [.register 1, .send 0 5, .register 2]) 1
  have hr := reachable_inv sz "c"
    (applyOps sz (Channel.mk0 Nat "c") [.register 1, .send 0 5, .register 2])
    ⟨[.register 1, .send 0 5, .register 2], rfl⟩
  exact ⟨h.1 0 (by decide) (by decide), h.2.1 hr.2,
    h.2.2 hr.1 (by decide) (by decide)⟩


/-- C3 counterexample: `register 1; send 42; unregister 1` leaves zero
subscribers but one retained item (`_gc` returns early when the cursor
dict is empty), so `buffer_depth ≠ 0` without subscribers; registering a
fresh subscriber afterwards then gives a state with one subscriber where
`base_offset ≠ min(cursor[*])`. -/
theorem claim_C3_counterexample :
    (applyOps sz (Channel.mk0 Nat "c") [.register 1, .send 0 42, .unregister 1]).cursors = []
    ∧ (applyOps sz (Channel.mk0 Nat "c") [.register 1, .send 0 42, .unregister 1]).items.length
        = 1
    ∧ (applyOps sz (Channel.mk0 Nat "c")
        [.register 1, .send 0 42, .unregister 1, .register 2]).cursors = [(2, 1)]
    ∧ (applyOps sz (Channel.mk0 Nat "c")
        [.register 1, .send 0 42, .unregister 1, .register 2]).offset
      ≠ minList ((applyOps sz (Channel.mk0 Nat "c")
        [.register 1, .send 0 42, .unregister 1, .register 2]).cursors.map Prod.snd) := by
  refine ⟨by decide, by decide, by decide, by decide⟩

/-- C3 (amended): along every reachable state, all cursors stay within
`[base_offset, base_offset + buffer_depth]`, and the operations that run
GC with a subscriber left re-establish tightness: after a
`_wait_and_get` that delivers an item, and after an `_unregister` of a
present id that leaves at least one subscriber, `base_offset` equals the
minimum cursor.  When the last subscriber unregisters, the buffer is not
emptied (`_gc` returns early), so `buffer_depth` may stay positive. -/
theorem claim_C3_gc_tightness {T : Type} (size : T → Nat) (name : String)
    (ch : Channel T) (h : Reachable size name ch) :
    ChInv ch
    ∧ (∀ subId stop x ch', ch.waitAndGet size subId stop = (.item x, ch') →
        ch'.offset = minList (ch'.cursors.map Prod.snd))
    ∧ (∀ subId, alookup ch.cursors subId ≠ none →
        (ch.unregister subId).cursors ≠ [] →
        (ch.unregister subId).offset
          = minList ((ch.unregister subId).cursors.map Prod.snd)) := by
  have hinv := (reachable_inv size name ch h).1
  refine ⟨hinv, ?_, ?_⟩
  · intro subId stop x ch' hw
    rcases Channel.waitAndGet_item size ch subId stop x ch' hw with ⟨index, h1, h2, h3, h4⟩
    subst h4
    rw [Channel.gc_cursors]
    apply Channel.gc_offset_eq_min
    · dsimp only
      exact aset_ne_nil _ _ _
    · dsimp only
      intro p hp
      rcases mem_aset _ _ _ p hp with h' | h'
      · rw [h']
        have := (hinv _ (mem_of_alookup _ _ _ h1)).1
        dsimp only
        omega
      · exact (hinv p h').1
  · intro subId hsome hne
    dsimp only [Channel.unregister] at hne ⊢
    rw [if_neg hsome] at hne ⊢
    rw [Channel.gc_cursors] at hne ⊢
    apply Channel.gc_offset_eq_min
    · dsimp only
      dsimp only at hne
      exact hne
    · dsimp only
      exact fun p hp => (hinv p (mem_aremove _ _ _ hp)).1

/-- C3 witness: a reachable state with two subscribers where
unsubscribing one leaves `base_offset = min(cursor[*])`. -/
theorem claim_C3_gc_tightness_witness :
    ((applyOps sz (Channel.mk0 Nat "c")
        [.register 1, .send 0 5, .register 2, .waitGet 1 false]).unregister 2).offset
      = minList (((applyOps sz (Channel.mk0 Nat "c")
        [.register 1, .send 0 5, .register 2, .waitGet 1 false]).unregister 2).cursors.map
          Prod.snd) := by
  have h := claim_C3_gc_tightness sz "c"
    (applyOps sz (Channel.mk0 Nat "c") [.register 1, .send 0 5, .register 2, .waitGet 1 false])
    ⟨[.register 1, .send 0 5, .register 2, .waitGet 1 false], rfl⟩
  exact h.2.2 2 (by decide) (by decide)

/-- C8: a new subscription's cursor is the current tail
`base_offset + buffer_depth`; its snapshot entry immediately after
subscribing reports lag 0 (and zero deltas); and along any sequence of
further operations, every item that `_wait_and_get` delivers to this
subscription sits at an absolute index at least the tail at subscribe
time — previously published history is never delivered. -/
theorem claim_C8_late_subscriber_no_history {T : Type} (size : T → Nat)
    (name : String) (ch : Channel T) (subId : Nat) (h : Reachable size name ch) :
    alookup (ch.register subId).cursors subId = some (ch.offset + ch.items.length)
    ∧ (toString subId,
        ({ lag := 0, msgCountDelta := 0, byteCountDelta := 0 } : SubscriberSnapshot))
        ∈ (ch.register subId).snapshot.1.subscribers
    ∧ (∀ ch2, ReachableFrom size (ch.register subId) ch2 →
        ∀ stop x ch3, ch2.waitAndGet size subId stop = (.item x, ch3) →
        ∀ c, alookup ch2.cursors subId = some c →
          ch.offset + ch.items.length ≤ c
          ∧ ch2.items.get? (c - ch2.offset) = some x) := by
  obtain ⟨hinv, hwf⟩ := reachable_inv size name ch h
  refine ⟨?_, ?_, ?_⟩
  · dsimp only [Channel.register]
    rw [alookup_aset_self]
  · dsimp only [Channel.snapshot, Channel.register]
    refine List.mem_map.2 ⟨(subId, ch.offset + ch.items.length), mem_aset_self _ _ _, ?_⟩
    have hmsg : agetD (aset ch.subMsgCountDelta subId 0) subId 0 = 0 := by
      rw [agetD, alookup_aset_self]
      rfl
    have hbyte : agetD (aset ch.subByteCountDelta subId 0) subId 0 = 0 := by
      rw [agetD, alookup_aset_self]
      rfl
    dsimp only
    rw [hmsg, hbyte, sub_self]
  · intro ch2 hreach stop x ch3 hw c hc
    have hlb0 : LowerBound subId (ch.offset + ch.items.length) (ch.register subId) := by
      refine ⟨applyOp_ChInv size ch (.register subId) hinv,
        applyOp_ChWF size ch (.register subId) hwf, ?_, ?_⟩
      · intro c' hc'
        dsimp only [Channel.register] at hc'
        rw [alookup_aset_self] at hc'
        injection hc' with hc'
        omega
      · dsimp only [Channel.register]
        exact Nat.le_refl _
    have hlb := reachableFrom_LowerBound size subId (ch.offset + ch.items.length)
      (ch.register subId) ch2 hreach hlb0
    rcases Channel.waitAndGet_item size ch2 subId stop x ch3 hw with ⟨index, h1, h2, h3, _⟩
    have hceq : c = index := Option.some.inj (hc.symm.trans h1)
    subst hceq
    exact ⟨hlb.2.2.1 c h1, h3⟩

/-- C8 witness: after two publishes the subscriber joins at tail 2; a
later publish is delivered at index 2 ≥ 2, never the history. -/
theorem claim_C8_late_subscriber_no_history_witness :
    (applyOps sz (Channel.mk0 Nat "c") [.register 1, .send 0 10, .send 0 20]).offset
        + (applyOps sz (Channel.mk0 Nat "c")
            [.register 1, .send 0 10, .send 0 20]).items.length ≤ 2
    ∧ (applyOps sz
          ((applyOps sz (Channel.mk0 Nat "c")
            [.register 1, .send 0 10, .send 0 20]).register 2)
          [.send 0 30]).items.get?
        (2 - (applyOps sz
          ((applyOps sz (Channel.mk0 Nat "c")
            [.register 1, .send 0 10, .send 0 20]).register 2)
          [.send 0 30]).offset) = some 30 := by
  have h := claim_C8_late_subscriber_no_history sz "c"
    (applyOps sz (Channel.mk0 Nat "c") [.register 1, .send 0 10, .send 0 20]) 2
    ⟨[.register 1, .send 0 10, .send 0 20], rfl⟩
  exact h.2.2
    (applyOps sz
      ((applyOps sz (Channel.mk0 Nat "c") [.register 1, .send 0 10, .send 0 20]).register 2)
      [.send 0 30])
    ⟨[.send 0 30], rfl⟩ false 30
    ((applyOps sz
      ((applyOps sz (Channel.mk0 Nat "c") [.register 1, .send 0 10, .send 0 20]).register 2)
      [.send 0 30]).waitAndGet sz 2 false).2
    (by decide) 2 (by decide)

end OpenNeuro
